import Mathlib

/-!
Verification of the bhav-copy download engine (`src/bse/src/bhav_copy.py`,
`src/bse/src/yahoo.py`).

Shallow embedding conventions:
- Python floats are modelled as exact rationals (`ℚ`); `math.pow(2, count)`
  with a real-valued `count` is modelled with the real power `Real.rpow`.
- `datetime` dates are modelled by their proleptic-Gregorian ordinal (a `ℕ`,
  as returned by `date.toordinal()`); `date.weekday()` (0 = Monday) on
  ordinal `d` is `(d + 6) % 7`, one day is `+ 1`, and `<` on dates is `<`
  on ordinals.
- The blocking sleeps and log lines inside `ExponentialBackoff.backoff` /
  `ExponentialBackoff.wait` are side effects with no influence on any data;
  the state-transition part of those methods is embedded.  Which of the two
  throttle calls the fetch loop makes for a task is recorded in an explicit
  event trace.
- The HTTP capability (`requests.get`) is a parameter `fetch : String →
  Response` (resp. `String → Except TransportError Response` in the
  exception-aware variant), a pure function from url to response.
- `path.abspath` is environment-dependent (depends on the process's working
  directory); it is modelled as the identity on the joined path
  `dest_dir ++ "/" ++ dated_file`, which preserves everything the claims
  depend on (presence and per-task distinctness of `lfile`).
-/

/-- The `Download` namedtuple (`DL` in the source): url, remote file name,
local file (absent on failure), transport status. -/
structure DL where
  url : String
  rfile : String
  lfile : Option String
  status : Int
deriving DecidableEq, Repr

/-- The response object exposed by the HTTP capability: `ok` and
`status_code`, the two members the fetch loop reads. -/
structure Response where
  ok : Bool
  status_code : Int
deriving DecidableEq, Repr

/-! ## ExponentialBackoff (`bhav_copy.py` lines 57–78) -/

/-- State of `ExponentialBackoff.__init__(self, start, limit)`:
`count` starts at 0, `start` and `limit` are fixed. -/
structure ExponentialBackoff where
  count : ℚ
  start : ℚ
  limit : ℚ
deriving DecidableEq, Repr

namespace ExponentialBackoff

/-- `ExponentialBackoff(start, limit)`: `count = 0`. -/
def init (start limit : ℚ) : ExponentialBackoff := ⟨0, start, limit⟩

/-- The `interval` property: `min(self.limit, self.start*math.pow(2, self.count))`.
`count` is a float that can take non-integer values (after `wait` decays it),
so the power is the real exponential. -/
noncomputable def interval (b : ExponentialBackoff) : ℝ :=
  min (b.limit : ℝ) ((b.start : ℝ) * (2 : ℝ) ^ (b.count : ℝ))

/-- State transition of `backoff()`: sleep for `interval` (dropped effect),
then `self.count += 1`. -/
def backoff (b : ExponentialBackoff) : ExponentialBackoff :=
  { b with count := b.count + 1 }

/-- The delay computed at the top of `wait()`:
`interval = max(0.01, self.start*self.count)`. -/
def waitDelay (b : ExponentialBackoff) : ℚ :=
  max 0.01 (b.start * b.count)

/-- State transition of `wait()`: if the computed delay exceeds the 0.01
floor, sleep for it (dropped effect) and decay `self.count *= 0.8705`;
otherwise no change. -/
def wait (b : ExponentialBackoff) : ExponentialBackoff :=
  if b.waitDelay > 0.01 then { b with count := b.count * 0.8705 } else b

end ExponentialBackoff

/-! ## Source.urls_for_range (`bhav_copy.py` lines 22–39) -/

/-- `date.weekday()` (0 = Monday, …, 6 = Sunday) of the date with proleptic
ordinal `d` (ordinal 1 = 0001-01-01, a Monday). -/
def pyWeekday (d : ℕ) : ℕ := (d + 6) % 7

namespace Source

/-- `Source.urls_for_range(self, start_date, end_date)`: walk one day at a
time over `[start_date, end_date)`, yielding `self.url_for_date(current)`
except on Saturdays and Sundays (`weekday() in [5, 6]`).  The subclass's
`url_for_date` method is the parameter `url_for_date`; dates are ordinals. -/
def urls_for_range (url_for_date : ℕ → α) (start_date end_date : ℕ) : List α :=
  if start_date < end_date then
    (if pyWeekday start_date = 5 ∨ pyWeekday start_date = 6 then []
     else [url_for_date start_date])
      ++ urls_for_range url_for_date (start_date + 1) end_date
  else []
termination_by end_date - start_date

end Source

/-! ## Yahoo source (`yahoo.py`) -/

/-- A calendar date as the Yahoo locator builder reads it:
`year`, `month` (1-based), `day`. -/
structure SimpleDate where
  year : ℕ
  month : ℕ
  day : ℕ
deriving DecidableEq, Repr

/-- `urllib.urlencode` on the parameter list, in the order the keys are
written in the source dict literal: join `key=value` pairs with `&`
(the values used by `YahooSource` contain only characters that
percent-encoding leaves unchanged). -/
def urlencode : List (String × String) → String
  | [] => ""
  | [p] => p.1 ++ "=" ++ p.2
  | p :: q :: rest => p.1 ++ "=" ++ p.2 ++ "&" ++ urlencode (q :: rest)

/-- `YahooSource.__init__`: fixed root, caller-supplied symbol. -/
structure YahooSource where
  symbol : String
deriving DecidableEq, Repr

namespace YahooSource

/-- Class attribute `url_root` (set in `__init__`). -/
def url_root : String := "http://real-chart.finance.yahoo.com"

/-- Class attribute `file_type_pfx` (named `file_type_` + `prefix` in the
source). -/
def file_type_pfx : String := "table"

/-- Class attribute `file_type_sfx` (named `file_type_` + `suffix` in the
source). -/
def file_type_sfx : String := ".csv"

/-- `YahooSource.urls_for_range(self, start_date, end_date)`: build the
query-string parameters (months are 0-based in the Yahoo API, hence
`month - 1`), urlencode them, and yield a single locator for the whole
range. -/
def urls_for_range (src : YahooSource) (start_date end_date : SimpleDate) :
    List String :=
  let params : List (String × String) :=
    [("s", src.symbol),
     ("a", toString (start_date.month - 1)),
     ("b", toString start_date.day),
     ("c", toString start_date.year),
     ("d", toString (end_date.month - 1)),
     ("e", toString end_date.day),
     ("f", toString end_date.year),
     ("g", "d"),
     ("ignore", ".csv")]
  let query := urlencode params
  [url_root ++ "/" ++ file_type_pfx ++ file_type_sfx ++ "?" ++ query]

end YahooSource

/-! ## The fetch loop `_download` (`bhav_copy.py` lines 112–143) -/

/-- The two throttle calls the fetch loop can make for a task. -/
inductive Event where
  | backoffCall : Event
  | waitCall : Event
deriving DecidableEq, Repr

/-- One iteration of the loop body of `_download` for the pair
`(item, dated_file)`: issue the GET; on a non-ok response record a failure
`DL` (with `lfile=None` and the response status) and call `backoff()` only
when the status is 401; on an ok response write the body to
`path.abspath(path.join(dest_dir, dated_file))` (the write itself is a
dropped effect), record a success `DL` carrying that path, and call
`wait()`.  Returns the recorded `DL`, the updated backoff state, and the
trace of throttle calls made for this task. -/
def downloadStep (dest_dir : String) (downloader : String → Response)
    (back : ExponentialBackoff) (item dated_file : String) :
    DL × ExponentialBackoff × List Event :=
  let resp := downloader item
  if !resp.ok then
    let r : DL := ⟨item, dated_file, none, resp.status_code⟩
    if resp.status_code = 401 then (r, back.backoff, [Event.backoffCall])
    else (r, back, [])
  else
    let filename := dest_dir ++ "/" ++ dated_file
    (⟨item, dated_file, some filename, resp.status_code⟩, back.wait,
      [Event.waitCall])

/-- The loop of `_download`, threading the backoff state through the tasks
and collecting the results and the throttle-call trace. -/
def downloadLoop (dest_dir : String) (downloader : String → Response)
    (back : ExponentialBackoff) :
    List (String × String) → List DL × List Event
  | [] => ([], [])
  | (item, dated_file) :: rest =>
    let (r, back2, evs) := downloadStep dest_dir downloader back item dated_file
    let (rs, evs2) := downloadLoop dest_dir downloader back2 rest
    (r :: rs, evs ++ evs2)

/-- `_download(sources, dest_dir, downloader)`: create a fresh
`ExponentialBackoff(0.5, 64)` and run the loop, returning the list of
results (one `DL` appended per task). -/
def _download (sources : List (String × String)) (dest_dir : String)
    (downloader : String → Response) : List DL :=
  (downloadLoop dest_dir downloader (ExponentialBackoff.init 0.5 64) sources).1

/-! ## Transport failures (`_download` with a downloader that can raise)

`requests.get` can raise (e.g. `ConnectionError`) instead of returning a
`Response`.  `_download` has no `try`/`except`, so such an exception aborts
the loop and propagates, discarding the results accumulated so far.  This
variant embeds that behaviour with a fallible downloader. -/

/-- A transport-level failure of the HTTP capability: the call raises
instead of returning a response object. -/
inductive TransportError where
  | connectionError : TransportError
deriving DecidableEq, Repr

/-- The loop of `_download` against a downloader that may raise, threading
the backoff state: a raise propagates immediately, losing the accumulated
results. -/
def _downloadExcGo (dest_dir : String)
    (downloader : String → Except TransportError Response)
    (back : ExponentialBackoff) :
    List (String × String) → Except TransportError (List DL)
  | [] => .ok []
  | (item, dated_file) :: rest =>
    match downloader item with
    | .error e => .error e
    | .ok resp =>
      if !resp.ok then
        let r : DL := ⟨item, dated_file, none, resp.status_code⟩
        let back2 := if resp.status_code = 401 then back.backoff else back
        match _downloadExcGo dest_dir downloader back2 rest with
        | .error e => .error e
        | .ok rs => .ok (r :: rs)
      else
        let filename := dest_dir ++ "/" ++ dated_file
        let r : DL := ⟨item, dated_file, some filename, resp.status_code⟩
        match _downloadExcGo dest_dir downloader back.wait rest with
        | .error e => .error e
        | .ok rs => .ok (r :: rs)

/-- `_download` with a downloader that may raise: `downloader(item)` either
returns a `Response` or raises, and a raise propagates out of the whole
loop (there is no `try`/`except` in `_download`), losing the accumulated
results. -/
def _downloadExc (sources : List (String × String)) (dest_dir : String)
    (downloader : String → Except TransportError Response) :
    Except TransportError (List DL) :=
  _downloadExcGo dest_dir downloader (ExponentialBackoff.init 0.5 64) sources

/-! ## The retry orchestrator `download` (`bhav_copy.py` lines 87–109) -/

/-- `partition(pred, iterable)`: returns the elements with `pred(x) ==
False` first, then those with `pred(x) == True`. -/
def partition (pred : α → Bool) (iterable : List α) : List α × List α :=
  (iterable.filter (fun x => !pred x), iterable.filter pred)

/-- `download(sources, dest_dir, attempt=1)`: run one `_download` pass,
split the results into `fails` (no `lfile`) and `successes`, keep only
non-404 failures as `retryables`, and if any remain while `attempt <= 3`
recurse on them with `attempt+1`, merging the recursive successes in and
dropping from `fails` every url the retries eventually fetched.  The HTTP
capability (`requests.get` with `stream=True` in the source) is the
parameter `fetch`.  Returns `(fails, successes)`. -/
def download (fetch : String → Response) (sources : List (String × String))
    (dest_dir : String) (attempt : ℕ := 1) : List DL × List DL :=
  let retry_on_fail := attempt ≤ 3
  let results := _download sources dest_dir fetch
  let (fails, successes) := partition (fun r => r.lfile ≠ none) results
  let retryables := fails.filter (fun f => !(f.status = 404 : Bool))
  if retryables ≠ [] ∧ retry_on_fail then
    let rec_call := download fetch (retryables.map (fun r => (r.url, r.rfile)))
      dest_dir (attempt + 1)
    let retry_success := rec_call.2
    let successes2 := successes ++ retry_success
    let success_urls := retry_success.map (fun s => s.url)
    let fails2 := fails.filter (fun f => !success_urls.contains f.url)
    (fails2, successes2)
  else
    (fails, successes)
termination_by 4 - attempt
decreasing_by
  rename_i h
  omega

/-- Number of `_download` passes the call `download(sources, dest_dir,
attempt)` performs over its whole recursion tree: the pass of the current
invocation plus, when the retry branch is taken, the passes of the
recursive invocation.  Mirrors the control flow of `download`. -/
def downloadPasses (fetch : String → Response)
    (sources : List (String × String)) (dest_dir : String) (attempt : ℕ) :
    ℕ :=
  let retry_on_fail := attempt ≤ 3
  let results := _download sources dest_dir fetch
  let (fails, _successes) := partition (fun r => r.lfile ≠ none) results
  let retryables := fails.filter (fun f => !(f.status = 404 : Bool))
  if retryables ≠ [] ∧ retry_on_fail then
    1 + downloadPasses fetch (retryables.map (fun r => (r.url, r.rfile)))
      dest_dir (attempt + 1)
  else 1
termination_by 4 - attempt
decreasing_by
  rename_i h
  omega

/-- All task lists handed to recursive (retry) invocations anywhere in the
recursion tree of `download(sources, dest_dir, attempt)`: when the retry
branch is taken, the reconstructed retryable tasks plus whatever the
recursive invocation re-submits in turn.  Mirrors the control flow of
`download`. -/
def retrySubmissions (fetch : String → Response)
    (sources : List (String × String)) (dest_dir : String) (attempt : ℕ) :
    List (String × String) :=
  let retry_on_fail := attempt ≤ 3
  let results := _download sources dest_dir fetch
  let (fails, _successes) := partition (fun r => r.lfile ≠ none) results
  let retryables := fails.filter (fun f => !(f.status = 404 : Bool))
  if retryables ≠ [] ∧ retry_on_fail then
    let retry_tasks := retryables.map (fun r => (r.url, r.rfile))
    retry_tasks ++ retrySubmissions fetch retry_tasks dest_dir (attempt + 1)
  else []
termination_by 4 - attempt
decreasing_by
  rename_i h
  omega

/-! ## Characterization of one fetch pass -/

/-- The `DL` that the fetch loop records for the task `t` (the per-task
outcome is a pure function of the response for `t`'s url; the threaded
backoff state never influences it). -/
def fetchResult (dest_dir : String) (fetch : String → Response)
    (t : String × String) : DL :=
  if (fetch t.1).ok then
    ⟨t.1, t.2, some (dest_dir ++ "/" ++ t.2), (fetch t.1).status_code⟩
  else
    ⟨t.1, t.2, none, (fetch t.1).status_code⟩

theorem downloadLoop_fst (dest_dir : String) (fetch : String → Response)
    (ts : List (String × String)) :
    ∀ back, (downloadLoop dest_dir fetch back ts).1 =
      ts.map (fetchResult dest_dir fetch) := by
  induction ts with
  | nil => intro back; rfl
  | cons t rest ih =>
    intro back
    obtain ⟨item, dated_file⟩ := t
    cases h : (fetch item).ok with
    | false =>
      by_cases h401 : (fetch item).status_code = 401 <;>
        simp [downloadLoop, downloadStep, fetchResult, h, h401, ih]
    | true =>
      simp [downloadLoop, downloadStep, fetchResult, h, ih]

theorem _download_eq_map (sources : List (String × String))
    (dest_dir : String) (fetch : String → Response) :
    _download sources dest_dir fetch =
      sources.map (fetchResult dest_dir fetch) := by
  simp [_download, downloadLoop_fst]

/-- C5: for every `DL` produced by the fetch loop, `lfile` is set iff the
response for the task's url was `ok`; every failed fetch yields `lfile`
absent and `status` equal to the response's `status_code` (successes also
record the response status). -/
theorem localPath_iff_success (sources : List (String × String))
    (dest_dir : String) (fetch : String → Response) (r : DL)
    (hr : r ∈ _download sources dest_dir fetch) :
    (r.lfile ≠ none ↔ (fetch r.url).ok = true) ∧
      ((fetch r.url).ok = false →
        r.lfile = none ∧ r.status = (fetch r.url).status_code) ∧
      r.status = (fetch r.url).status_code := by
  rw [_download_eq_map] at hr
  obtain ⟨t, -, rfl⟩ := List.mem_map.mp hr
  cases h : (fetch t.1).ok with
  | false => simp [fetchResult, h]
  | true => simp [fetchResult, h]

/-- Witness for C5 at a concrete failing fetch. -/
theorem localPath_iff_success_witness :
    (⟨"u", "f", none, 500⟩ : DL) ∈
        _download [("u", "f")] "d" (fun _ => ⟨false, 500⟩) ∧
      ((⟨"u", "f", none, 500⟩ : DL).lfile ≠ none ↔
        ((fun _ => (⟨false, 500⟩ : Response)) "u").ok = true) :=
  ⟨by decide,
    (localPath_iff_success [("u", "f")] "d" (fun _ => ⟨false, 500⟩)
      ⟨"u", "f", none, 500⟩ (by decide)).1⟩

/-- C6: within one fetch pass, the per-task loop body invokes `backoff()`
iff the fetch failed with status 401 (no other failing status triggers it),
and invokes `wait()` iff the fetch succeeded. -/
theorem backoff_iff_401_wait_iff_ok (dest_dir : String)
    (fetch : String → Response) (back : ExponentialBackoff)
    (item dated_file : String) :
    (Event.backoffCall ∈
        (downloadStep dest_dir fetch back item dated_file).2.2 ↔
      (fetch item).ok = false ∧ (fetch item).status_code = 401) ∧
      (Event.waitCall ∈
          (downloadStep dest_dir fetch back item dated_file).2.2 ↔
        (fetch item).ok = true) := by
  cases h : (fetch item).ok with
  | false =>
    by_cases h401 : (fetch item).status_code = 401 <;>
      simp [downloadStep, h, h401]
  | true => simp [downloadStep, h]

/-! ## C4: the date iteration of `Source.urls_for_range` -/

/-- C4: for any `url_for_date` capability, `Source.urls_for_range` yields
exactly one task per calendar day in the half-open interval
`[start_date, end_date)` whose weekday is not Saturday (5) and not
Sunday (6), in ascending chronological order; in particular, for
`start_date ≥ end_date` (`e - s = 0`) it yields nothing. -/
theorem urls_for_range_weekdays (url_for_date : ℕ → α) (s e : ℕ) :
    Source.urls_for_range url_for_date s e =
      ((List.range' s (e - s)).filter
        (fun d => !(pyWeekday d = 5 ∨ pyWeekday d = 6 : Bool))).map
        url_for_date := by
  rw [Source.urls_for_range]
  by_cases h : s < e
  · have hn : e - s = (e - (s + 1)) + 1 := by omega
    have ih := urls_for_range_weekdays url_for_date (s + 1) e
    rw [hn, List.range'_succ]
    by_cases h5 : pyWeekday s = 5
    · simp [h, h5, ih]
    · by_cases h6 : pyWeekday s = 6
      · simp [h, h5, h6, ih]
      · simp [h, h5, h6, ih]
  · have hn : e - s = 0 := by omega
    simp [h, hn]
termination_by e - s
decreasing_by omega

/-! ## C7, C8, C10: the backoff controller -/

/-- C7: the `interval` read is by definition `min(limit, start * 2^count)`;
for states sharing the same `start ≥ 0` and `limit`, it is non-decreasing
in `count` (on `count ≥ 0`) and always bounded above by the ceiling
`limit`. -/
theorem interval_monotone_bounded (b b' : ExponentialBackoff)
    (hs : b'.start = b.start) (hl : b'.limit = b.limit)
    (h0 : 0 ≤ b.start) (_h0c : 0 ≤ b.count) (hc : b.count ≤ b'.count) :
    b.interval = min (b.limit : ℝ) ((b.start : ℝ) * (2 : ℝ) ^ (b.count : ℝ))
      ∧ b.interval ≤ b'.interval ∧ b.interval ≤ (b.limit : ℝ) := by
  refine ⟨rfl, ?_, min_le_left _ _⟩
  unfold ExponentialBackoff.interval
  rw [hs, hl]
  refine min_le_min le_rfl ?_
  refine mul_le_mul_of_nonneg_left ?_ (by exact_mod_cast h0)
  exact Real.rpow_le_rpow_of_exponent_le one_le_two (by exact_mod_cast hc)

/-- Witness for C7: after one `backoff()` from the initial state the
interval has not decreased. -/
theorem interval_monotone_bounded_witness :
    ((ExponentialBackoff.init 0.5 64).backoff).start =
        (ExponentialBackoff.init 0.5 64).start ∧
      (0 : ℚ) ≤ (ExponentialBackoff.init 0.5 64).start ∧
      (0 : ℚ) ≤ (ExponentialBackoff.init 0.5 64).count ∧
      (ExponentialBackoff.init 0.5 64).count ≤
        ((ExponentialBackoff.init 0.5 64).backoff).count ∧
      (ExponentialBackoff.init 0.5 64).interval ≤
        ((ExponentialBackoff.init 0.5 64).backoff).interval :=
  ⟨rfl, by norm_num [ExponentialBackoff.init],
    by norm_num [ExponentialBackoff.init],
    by norm_num [ExponentialBackoff.init, ExponentialBackoff.backoff],
    (interval_monotone_bounded (ExponentialBackoff.init 0.5 64)
      ((ExponentialBackoff.init 0.5 64).backoff) rfl rfl
      (by norm_num [ExponentialBackoff.init])
      (by norm_num [ExponentialBackoff.init])
      (by norm_num [ExponentialBackoff.init, ExponentialBackoff.backoff])).2.1⟩

/-- C8: after `k` consecutive `wait()` calls, each of whose computed delay
strictly exceeds the 0.01 floor, `count` has decayed from `c₀` to
`c₀ * 0.8705^k`; and a `wait()` whose computed delay does not exceed the
floor leaves the state (in particular `count`) unchanged. -/
theorem wait_decay_pow (start limit c₀ : ℚ) (k : ℕ)
    (h : ∀ j < k, (0.01 : ℚ) < start * (c₀ * 0.8705 ^ j)) :
    (ExponentialBackoff.wait^[k] ⟨c₀, start, limit⟩) =
        (⟨c₀ * 0.8705 ^ k, start, limit⟩ : ExponentialBackoff)
      ∧ ∀ b : ExponentialBackoff, b.waitDelay ≤ 0.01 → b.wait = b := by
  constructor
  · induction k with
    | zero => simp
    | succ n ih =>
      have hstep : ∀ j < n, (0.01 : ℚ) < start * (c₀ * 0.8705 ^ j) :=
        fun j hj => h j (Nat.lt_succ_of_lt hj)
      rw [Function.iterate_succ_apply', ih hstep]
      unfold ExponentialBackoff.wait ExponentialBackoff.waitDelay
      rw [if_pos (lt_max_iff.mpr (Or.inr (h n (Nat.lt_succ_self n))))]
      simp only [ExponentialBackoff.mk.injEq, and_true]
      ring
  · intro b hb
    unfold ExponentialBackoff.wait
    rw [if_neg (not_lt.mpr hb)]

/-- Witness for C8 with one decaying call from `count = 1`. -/
theorem wait_decay_pow_witness :
    (∀ j < 1, (0.01 : ℚ) < (0.5 : ℚ) * (1 * 0.8705 ^ j)) ∧
      (ExponentialBackoff.wait^[1] ⟨1, 0.5, 64⟩) =
        (⟨1 * 0.8705 ^ 1, 0.5, 64⟩ : ExponentialBackoff) :=
  have hj : ∀ j < 1, (0.01 : ℚ) < (0.5 : ℚ) * (1 * 0.8705 ^ j) := by
    intro j hj
    have hj0 : j = 0 := by omega
    subst hj0
    norm_num
  ⟨hj, (wait_decay_pow 0.5 64 1 1 hj).1⟩

/-- An abstract client call on the backoff state: one of the two mutating
methods. -/
inductive BackoffOp where
  | backoffOp : BackoffOp
  | waitOp : BackoffOp
deriving DecidableEq, Repr

/-- Apply one method call to the state. -/
def applyOp (b : ExponentialBackoff) : BackoffOp → ExponentialBackoff
  | .backoffOp => b.backoff
  | .waitOp => b.wait

/-- Run a sequence of method calls left to right. -/
def runOps (b : ExponentialBackoff) (ops : List BackoffOp) :
    ExponentialBackoff :=
  ops.foldl applyOp b

theorem applyOp_start_limit_count (b : ExponentialBackoff) (op : BackoffOp) :
    (applyOp b op).start = b.start ∧ (applyOp b op).limit = b.limit ∧
      (0 ≤ b.count → 0 ≤ (applyOp b op).count) := by
  cases op with
  | backoffOp =>
    refine ⟨rfl, rfl, fun h => ?_⟩
    show 0 ≤ b.count + 1
    linarith
  | waitOp =>
    have hw : applyOp b BackoffOp.waitOp = b.wait := rfl
    rw [hw]
    unfold ExponentialBackoff.wait
    by_cases hc : b.waitDelay > 0.01
    · rw [if_pos hc]
      exact ⟨rfl, rfl, fun h => mul_nonneg h (by norm_num)⟩
    · rw [if_neg hc]
      exact ⟨rfl, rfl, fun h => h⟩

theorem runOps_start_limit_count (ops : List BackoffOp) :
    ∀ b : ExponentialBackoff, 0 ≤ b.count →
      (runOps b ops).start = b.start ∧ (runOps b ops).limit = b.limit ∧
        0 ≤ (runOps b ops).count := by
  induction ops with
  | nil => exact fun b h => ⟨rfl, rfl, h⟩
  | cons op rest ih =>
    intro b h
    obtain ⟨h1, h2, h3⟩ := applyOp_start_limit_count b op
    obtain ⟨g1, g2, g3⟩ := ih (applyOp b op) (h3 h)
    exact ⟨by rw [runOps, List.foldl_cons, ← runOps, g1, h1],
      by rw [runOps, List.foldl_cons, ← runOps, g2, h2],
      by rw [runOps, List.foldl_cons, ← runOps]; exact g3⟩

/-- C10: starting from a freshly constructed state (`count = 0`) with a
non-negative `start`, every sequence of `backoff()`/`wait()` calls keeps
`count ≥ 0`; hence the `interval` read stays at least `min(limit, start)`
and the delay computed by `wait()` is never negative. -/
theorem backoff_count_invariant (start limit : ℚ) (ops : List BackoffOp)
    (h0 : 0 ≤ start) :
    0 ≤ (runOps (ExponentialBackoff.init start limit) ops).count ∧
      min (limit : ℝ) (start : ℝ) ≤
        (runOps (ExponentialBackoff.init start limit) ops).interval ∧
      0 ≤ (runOps (ExponentialBackoff.init start limit) ops).waitDelay := by
  obtain ⟨hs, hl, hc⟩ :=
    runOps_start_limit_count ops (ExponentialBackoff.init start limit) le_rfl
  refine ⟨hc, ?_, le_trans (by norm_num) (le_max_left _ _)⟩
  unfold ExponentialBackoff.interval
  rw [hs, hl]
  show min (limit : ℝ) (start : ℝ) ≤ min _ _
  refine min_le_min le_rfl ?_
  have h1 : (1 : ℝ) ≤ (2 : ℝ) ^
      (((runOps (ExponentialBackoff.init start limit) ops).count : ℚ) : ℝ) := by
    have h2 := Real.rpow_le_rpow_of_exponent_le (x := (2 : ℝ))
      (y := (0 : ℝ))
      (z := (((runOps (ExponentialBackoff.init start limit) ops).count : ℚ) : ℝ))
      one_le_two (by exact_mod_cast hc)
    rwa [Real.rpow_zero] at h2
  exact le_mul_of_one_le_right (by exact_mod_cast h0) h1

/-- Witness for C10: one `backoff()` then one `wait()` from the reference
construction `ExponentialBackoff(0.5, 64)`. -/
theorem backoff_count_invariant_witness :
    (0 : ℚ) ≤ 0.5 ∧
      0 ≤ (runOps (ExponentialBackoff.init 0.5 64)
        [BackoffOp.backoffOp, BackoffOp.waitOp]).count :=
  ⟨by norm_num,
    (backoff_count_invariant 0.5 64 [BackoffOp.backoffOp, BackoffOp.waitOp]
      (by norm_num)).1⟩

/-! ## C9: the Yahoo source yields one locator per range -/

/-- C9: for every pair of dates, `YahooSource.urls_for_range` yields
exactly one locator for the whole range — a single query-string URL that
encodes the symbol (`s=`), the start endpoint (`a=`/`b=`/`c=`: 0-based
month, day, year) and the end endpoint (`d=`/`e=`/`f=`) — never one
locator per day. -/
theorem yahoo_single_locator_per_range (src : YahooSource)
    (sd ed : SimpleDate) :
    YahooSource.urls_for_range src sd ed =
        ["http://real-chart.finance.yahoo.com/table.csv?s=" ++ src.symbol ++
          "&a=" ++ toString (sd.month - 1) ++ "&b=" ++ toString sd.day ++
          "&c=" ++ toString sd.year ++ "&d=" ++ toString (ed.month - 1) ++
          "&e=" ++ toString ed.day ++ "&f=" ++ toString ed.year ++
          "&g=d&ignore=.csv"]
      ∧ (YahooSource.urls_for_range src sd ed).length = 1 := by
  constructor
  · simp only [YahooSource.urls_for_range, YahooSource.url_root,
      YahooSource.file_type_pfx, YahooSource.file_type_sfx, urlencode,
      List.cons.injEq, and_true]
    apply String.ext
    simp [String.data_append]
  · rfl


/-! ## C1: retry bound when every fetch fails with a retryable status -/

theorem _download_allfail (ts : List (String × String)) (dest : String)
    (fetch : String → Response) (hford : ∀ u, (fetch u).ok = false) :
    _download ts dest fetch =
      ts.map (fun t => (⟨t.1, t.2, none, (fetch t.1).status_code⟩ : DL)) := by
  rw [_download_eq_map]
  apply List.map_congr_left
  intro t _
  simp [fetchResult, hford t.1]

theorem download_allfail (fetch : String → Response) (dest : String)
    (hf : ∀ u, (fetch u).ok = false ∧ (fetch u).status_code ≠ 404)
    (a : ℕ) (ts : List (String × String)) :
    download fetch ts dest a =
      (ts.map (fun t => (⟨t.1, t.2, none, (fetch t.1).status_code⟩ : DL)),
        []) := by
  have hford : ∀ u, (fetch u).ok = false := fun u => (hf u).1
  have h404 : ∀ u, (fetch u).status_code ≠ 404 := fun u => (hf u).2
  rw [download]
  rw [_download_allfail ts dest fetch hford]
  have hfails : (ts.map (fun t =>
      (⟨t.1, t.2, none, (fetch t.1).status_code⟩ : DL))).filter
        (fun r => !(r.lfile ≠ none : Bool)) =
      ts.map (fun t => (⟨t.1, t.2, none, (fetch t.1).status_code⟩ : DL)) := by
    apply List.filter_eq_self.mpr
    intro r hr
    obtain ⟨t, -, rfl⟩ := List.mem_map.mp hr
    simp
  have hsucc : (ts.map (fun t =>
      (⟨t.1, t.2, none, (fetch t.1).status_code⟩ : DL))).filter
        (fun r => (r.lfile ≠ none : Bool)) = [] := by
    apply List.filter_eq_nil_iff.mpr
    intro r hr
    obtain ⟨t, -, rfl⟩ := List.mem_map.mp hr
    simp
  have hretry : (ts.map (fun t =>
      (⟨t.1, t.2, none, (fetch t.1).status_code⟩ : DL))).filter
        (fun f => !(f.status = 404 : Bool)) =
      ts.map (fun t => (⟨t.1, t.2, none, (fetch t.1).status_code⟩ : DL)) := by
    apply List.filter_eq_self.mpr
    intro r hr
    obtain ⟨t, -, rfl⟩ := List.mem_map.mp hr
    simp [h404 t.1]
  simp only [partition, hfails, hsucc, hretry]
  cases ts with
  | nil => simp
  | cons t rest =>
    by_cases ha : a ≤ 3
    · have hcond : (t :: rest).map (fun t =>
          (⟨t.1, t.2, none, (fetch t.1).status_code⟩ : DL)) ≠ [] ∧ a ≤ 3 :=
        ⟨by simp, ha⟩
      rw [if_pos hcond]
      have hback : ((t :: rest).map (fun t =>
          (⟨t.1, t.2, none, (fetch t.1).status_code⟩ : DL))).map
            (fun r => (r.url, r.rfile)) = t :: rest := by
        have hcomp : ((fun r : DL => (r.url, r.rfile)) ∘
            fun t : String × String =>
              (⟨t.1, t.2, none, (fetch t.1).status_code⟩ : DL)) = id := by
          funext t
          rfl
        rw [List.map_map, hcomp, List.map_id]
      rw [hback]
      rw [download_allfail fetch dest hf (a + 1) (t :: rest)]
      simp
    · have hcond : ¬((t :: rest).map (fun t =>
          (⟨t.1, t.2, none, (fetch t.1).status_code⟩ : DL)) ≠ [] ∧ a ≤ 3) := by
        simp [ha]
      rw [if_neg hcond]
termination_by 4 - a
decreasing_by omega

theorem downloadPasses_allfail (fetch : String → Response) (dest : String)
    (hf : ∀ u, (fetch u).ok = false ∧ (fetch u).status_code ≠ 404)
    (a : ℕ) (ha4 : a ≤ 4) (ts : List (String × String)) (hts : ts ≠ []) :
    downloadPasses fetch ts dest a = 5 - a := by
  have hford : ∀ u, (fetch u).ok = false := fun u => (hf u).1
  have h404 : ∀ u, (fetch u).status_code ≠ 404 := fun u => (hf u).2
  rw [downloadPasses]
  rw [_download_allfail ts dest fetch hford]
  have hfails : (ts.map (fun t =>
      (⟨t.1, t.2, none, (fetch t.1).status_code⟩ : DL))).filter
        (fun r => !(r.lfile ≠ none : Bool)) =
      ts.map (fun t => (⟨t.1, t.2, none, (fetch t.1).status_code⟩ : DL)) := by
    apply List.filter_eq_self.mpr
    intro r hr
    obtain ⟨t, -, rfl⟩ := List.mem_map.mp hr
    simp
  have hretry : (ts.map (fun t =>
      (⟨t.1, t.2, none, (fetch t.1).status_code⟩ : DL))).filter
        (fun f => !(f.status = 404 : Bool)) =
      ts.map (fun t => (⟨t.1, t.2, none, (fetch t.1).status_code⟩ : DL)) := by
    apply List.filter_eq_self.mpr
    intro r hr
    obtain ⟨t, -, rfl⟩ := List.mem_map.mp hr
    simp [h404 t.1]
  simp only [partition, hfails, hretry]
  cases ts with
  | nil => exact absurd rfl hts
  | cons t rest =>
    by_cases ha : a ≤ 3
    · have hcond : (t :: rest).map (fun t =>
          (⟨t.1, t.2, none, (fetch t.1).status_code⟩ : DL)) ≠ [] ∧ a ≤ 3 :=
        ⟨by simp, ha⟩
      rw [if_pos hcond]
      have hback : ((t :: rest).map (fun t =>
          (⟨t.1, t.2, none, (fetch t.1).status_code⟩ : DL))).map
            (fun r => (r.url, r.rfile)) = t :: rest := by
        have hcomp : ((fun r : DL => (r.url, r.rfile)) ∘
            fun t : String × String =>
              (⟨t.1, t.2, none, (fetch t.1).status_code⟩ : DL)) = id := by
          funext t
          rfl
        rw [List.map_map, hcomp, List.map_id]
      rw [hback]
      rw [downloadPasses_allfail fetch dest hf (a + 1) (by omega) (t :: rest)
        (by simp)]
      omega
    · have hcond : ¬((t :: rest).map (fun t =>
          (⟨t.1, t.2, none, (fetch t.1).status_code⟩ : DL)) ≠ [] ∧ a ≤ 3) := by
        simp [ha]
      rw [if_neg hcond]
      omega
termination_by 4 - a
decreasing_by omega

/-- C1: when every fetch returns a non-success, non-404 status (for
example, always 500), the top-level `download(tasks, destDir)` call
(`attempt = 1`) drives the fetch pass over the tasks exactly 4 times
(attempts 1–4, the recursion guard being `attempt <= 3`), and every task
ends up in the returned `fails` with its recorded status code. -/
theorem retry_bound_four_passes (fetch : String → Response) (dest : String)
    (tasks : List (String × String))
    (hf : ∀ u, (fetch u).ok = false ∧ (fetch u).status_code ≠ 404)
    (hne : tasks ≠ []) :
    downloadPasses fetch tasks dest 1 = 4 ∧
      (download fetch tasks dest 1).1 =
        tasks.map (fun t =>
          (⟨t.1, t.2, none, (fetch t.1).status_code⟩ : DL)) := by
  constructor
  · have h := downloadPasses_allfail fetch dest hf 1 (by omega) tasks hne
    simpa using h
  · rw [download_allfail fetch dest hf 1 tasks]

/-- Witness for C1: one task against a server that always answers 500. -/
theorem retry_bound_four_passes_witness :
    (∀ u : String,
        ((fun _ : String => (⟨false, 500⟩ : Response)) u).ok = false ∧
        ((fun _ : String => (⟨false, 500⟩ : Response)) u).status_code ≠ 404) ∧
      ([("u", "f")] : List (String × String)) ≠ [] ∧
      downloadPasses (fun _ : String => (⟨false, 500⟩ : Response))
        [("u", "f")] "d" 1 = 4 :=
  ⟨fun _ => ⟨rfl, by simp⟩, by decide,
    (retry_bound_four_passes (fun _ : String => (⟨false, 500⟩ : Response))
      "d" [("u", "f")]
      (fun _ => ⟨rfl, by simp⟩) (by decide)).1⟩

/-! ## C3: 404 failures are never re-submitted -/

theorem _download_fail_mem (ts : List (String × String)) (dest : String)
    (fetch : String → Response) (r : DL) (hr : r ∈ _download ts dest fetch)
    (hnone : r.lfile = none) :
    (r.url, r.rfile) ∈ ts ∧ (fetch r.url).ok = false ∧
      r.status = (fetch r.url).status_code := by
  rw [_download_eq_map] at hr
  obtain ⟨t, ht, rfl⟩ := List.mem_map.mp hr
  cases h : (fetch t.1).ok with
  | true =>
    exfalso
    simp [fetchResult, h] at hnone
  | false =>
    refine ⟨?_, by simp [fetchResult, h], by simp [fetchResult, h]⟩
    have hurl : ((fetchResult dest fetch t).url,
        (fetchResult dest fetch t).rfile) = t := by
      simp [fetchResult, h]
    rw [hurl]
    exact ht

theorem _download_success_mem (ts : List (String × String)) (dest : String)
    (fetch : String → Response) (r : DL) (hr : r ∈ _download ts dest fetch)
    (hlf : r.lfile ≠ none) : (fetch r.url).ok = true := by
  rw [_download_eq_map] at hr
  obtain ⟨t, -, rfl⟩ := List.mem_map.mp hr
  cases h : (fetch t.1).ok with
  | false =>
    exfalso
    apply hlf
    simp [fetchResult, h]
  | true => simp [fetchResult, h]

theorem download_success_ok (fetch : String → Response) (dest : String)
    (a : ℕ) (ts : List (String × String)) :
    ∀ r ∈ (download fetch ts dest a).2, (fetch r.url).ok = true := by
  intro r hr
  rw [download] at hr
  simp only [] at hr
  split at hr
  · rename_i hcond
    simp only [partition] at hr
    rcases List.mem_append.mp hr with hr1 | hr2
    · obtain ⟨hmem, hpred⟩ := List.mem_filter.mp hr1
      exact _download_success_mem ts dest fetch r hmem (by simpa using hpred)
    · exact download_success_ok fetch dest (a + 1) _ r hr2
  · simp only [partition] at hr
    obtain ⟨hmem, hpred⟩ := List.mem_filter.mp hr
    exact _download_success_mem ts dest fetch r hmem (by simpa using hpred)
termination_by 4 - a
decreasing_by omega

theorem retrySubmissions_not404 (fetch : String → Response) (dest : String)
    (a : ℕ) (ts : List (String × String)) :
    ∀ p ∈ retrySubmissions fetch ts dest a,
      (fetch p.1).ok = false ∧ (fetch p.1).status_code ≠ 404 := by
  intro p hp
  rw [retrySubmissions] at hp
  simp only [] at hp
  split at hp
  · rename_i hcond
    rcases List.mem_append.mp hp with hp1 | hp2
    · obtain ⟨rr, hrr, rfl⟩ := List.mem_map.mp hp1
      obtain ⟨hfl, hst⟩ := List.mem_filter.mp hrr
      simp only [partition] at hfl
      obtain ⟨hmem, hpred⟩ := List.mem_filter.mp hfl
      have hnone : rr.lfile = none := by
        simpa using hpred
      obtain ⟨-, hok, hstatus⟩ :=
        _download_fail_mem ts dest fetch rr hmem hnone
      refine ⟨hok, ?_⟩
      rw [← hstatus]
      simpa using hst
    · exact retrySubmissions_not404 fetch dest (a + 1) _ p hp2
  · exact absurd hp (List.not_mem_nil p)
termination_by 4 - a
decreasing_by omega

theorem download_fails_mem (fetch : String → Response) (dest : String)
    (a : ℕ) (ts : List (String × String)) (t : String × String)
    (ht : t ∈ ts) (hok : (fetch t.1).ok = false) :
    (⟨t.1, t.2, none, (fetch t.1).status_code⟩ : DL) ∈
      (download fetch ts dest a).1 := by
  have hres : (⟨t.1, t.2, none, (fetch t.1).status_code⟩ : DL) ∈
      _download ts dest fetch := by
    rw [_download_eq_map]
    refine List.mem_map.mpr ⟨t, ht, ?_⟩
    simp [fetchResult, hok]
  have hfl : (⟨t.1, t.2, none, (fetch t.1).status_code⟩ : DL) ∈
      (_download ts dest fetch).filter (fun r => !(r.lfile ≠ none : Bool)) :=
    List.mem_filter.mpr ⟨hres, by simp⟩
  rw [download]
  simp only []
  split
  · rename_i hcond
    simp only [partition]
    refine List.mem_filter.mpr ⟨by simpa [partition] using hfl, ?_⟩
    simp only [Bool.not_eq_true']
    have hgen : ∀ l : List DL, (∀ s ∈ l, (fetch s.url).ok = true) →
        (l.map (fun s => s.url)).contains t.1 = false := by
      intro l hl
      have hnm : t.1 ∉ l.map (fun s => s.url) := by
        intro hmem
        obtain ⟨s, hs, hsu⟩ := List.mem_map.mp hmem
        have hokt := hl s hs
        rw [hsu] at hokt
        rw [hokt] at hok
        cases hok
      simpa using hnm
    exact hgen _ (download_success_ok fetch dest (a + 1) _)
  · simpa [partition] using hfl

/-- C3: a task whose fetch fails with 404 is in the final `fails` of
`download(tasks, destDir)` (attempt 1) and is never handed to a retry
pass, even though the attempt budget is unused; more generally, every task
ever re-submitted to a retry pass is a failed one whose status code is not
404. -/
theorem notFound_never_resubmitted (fetch : String → Response)
    (dest : String) (tasks : List (String × String)) (t : String × String)
    (hok : (fetch t.1).ok = false) (h404 : (fetch t.1).status_code = 404)
    (ht : t ∈ tasks) :
    (⟨t.1, t.2, none, 404⟩ : DL) ∈ (download fetch tasks dest 1).1 ∧
      t ∉ retrySubmissions fetch tasks dest 1 ∧
      ∀ p ∈ retrySubmissions fetch tasks dest 1,
        (fetch p.1).ok = false ∧ (fetch p.1).status_code ≠ 404 := by
  refine ⟨?_, ?_, retrySubmissions_not404 fetch dest 1 tasks⟩
  · have h := download_fails_mem fetch dest 1 tasks t ht hok
    rwa [h404] at h
  · intro hmem
    exact (retrySubmissions_not404 fetch dest 1 tasks t hmem).2 h404

/-- Witness for C3: one task against a server that always answers 404. -/
theorem notFound_never_resubmitted_witness :
    ((fun _ : String => (⟨false, 404⟩ : Response)) "u").ok = false ∧
      ((fun _ : String => (⟨false, 404⟩ : Response)) "u").status_code = 404 ∧
      (("u", "f") : String × String) ∈ ([("u", "f")] : List (String × String)) ∧
      (⟨"u", "f", none, 404⟩ : DL) ∈
        (download (fun _ : String => (⟨false, 404⟩ : Response))
          [("u", "f")] "d" 1).1 :=
  ⟨rfl, rfl, by decide,
    (notFound_never_resubmitted (fun _ : String => (⟨false, 404⟩ : Response))
      "d" [("u", "f")] ("u", "f") rfl rfl (by decide)).1⟩

/-! ## C2: per-task classification vs. transport-level failures -/

theorem _downloadExcGo_total (dest : String) (dl : String → Response)
    (ts : List (String × String)) :
    ∀ back, _downloadExcGo dest (fun u => Except.ok (dl u)) back ts =
      Except.ok (downloadLoop dest dl back ts).1 := by
  induction ts with
  | nil => intro back; rfl
  | cons t rest ih =>
    intro back
    obtain ⟨item, dated_file⟩ := t
    cases h : (dl item).ok with
    | false =>
      by_cases h401 : (dl item).status_code = 401 <;>
        simp [_downloadExcGo, downloadLoop, downloadStep, h, h401, ih]
    | true =>
      simp [_downloadExcGo, downloadLoop, downloadStep, h, ih]

/-- C2 (amended): whenever the HTTP capability returns a response object
for every url (no transport-level raise), `_download` yields exactly one
`DownloadResult` per task and no exception escapes; but a transport-level
failure is NOT classified into a result — it propagates out of the whole
batch (`_download` has no `try`/`except`), see the counterexample. -/
theorem downloadExc_total_classifies (dl : String → Response)
    (sources : List (String × String)) (dest : String) :
    _downloadExc sources dest (fun u => Except.ok (dl u)) =
        Except.ok (_download sources dest dl) ∧
      (_download sources dest dl).length = sources.length := by
  constructor
  · rw [_downloadExc]
    rw [_downloadExcGo_total dest dl sources]
    rfl
  · rw [_download_eq_map]
    exact List.length_map sources (fetchResult dest dl)

/-- Counterexample for C2 as stated: a connection-level failure on the
single task makes the whole batch raise; no `DownloadResult` (with a
sentinel status or otherwise) is produced. -/
theorem transport_error_escapes :
    _downloadExc [("u", "f")] "d"
        (fun _ => Except.error TransportError.connectionError) =
      Except.error TransportError.connectionError ∧
      ∀ rs : List DL,
        _downloadExc [("u", "f")] "d"
          (fun _ => Except.error TransportError.connectionError) ≠
        Except.ok rs := by
  constructor
  · rfl
  · intro rs h
    simp only [_downloadExc, _downloadExcGo] at h
    exact Except.noConfusion h

/-- Counterexample for C1 as universally stated: the empty batch vacuously
satisfies "every fetch attempt returns a non-success, non-404 status", yet
`download` performs a single pass over it, not 4 (there are no retryable
failures, so the recursion stops immediately). -/
theorem retry_bound_empty_batch :
    downloadPasses (fun _ : String => (⟨false, 500⟩ : Response)) [] "d" 1 = 1
      ∧ (1 : ℕ) ≠ 4 := by
  constructor
  · rw [downloadPasses]
    simp [_download, downloadLoop, partition]
  · decide
